import Mathlib

/-!
Verification of the dialoguer prompt engine: a shallow embedding of the
paging controller (`src/paging.rs`), the incremental renderer
(`src/theme.rs`, `TermThemeRenderer`), the selection state machines
(`src/prompts/select.rs`, `multi_select.rs`, `sort.rs`), the fuzzy select
loop (`src/prompts/fuzzy_select.rs`) and the line-editor Enter logic
(`src/prompts/input.rs`), together with theorems settling the spec claims.

Machine integers (`usize`, `u16`) are modelled as `Nat`; the Rust sentinel
`!0usize` is the explicit constant `usizeMax`.  Fallible interactions
return explicit outcome types.  Terminal I/O is abstracted into an event
log so that "nothing was rendered / no key was read" is expressible.
-/

namespace Dialoguer

/-- The value of the Rust expression `!0` at type `usize` (64-bit). -/
def usizeMax : Nat := 2 ^ 64 - 1

/-- Exact ceiling division on `Nat` (the mathematical `ceil(a / b)`). -/
def ceilDiv (a b : Nat) : Nat := (a + b - 1) / b

/-- Round the rational `N / D` to the nearest integer, ties to even —
the IEEE-754 default rounding applied to a scaled significand. -/
def roundNE (N D : Nat) : Nat :=
  if 2 * (N % D) < D then N / D
  else if D < 2 * (N % D) then N / D + 1
  else if N / D % 2 = 0 then N / D else N / D + 1

/-- `floorLog2Aux e x` is the largest exponent `k ≤ e + 1` with
`2 ^ k ≤ x` when one exists below the cutoff, else 0; structural
recursion keeps it kernel-computable. -/
def floorLog2Aux : Nat → Nat → Nat
  | 0, _ => 0
  | e + 1, x => if 2 ^ (e + 1) ≤ x then e + 1 else floorLog2Aux e x

/-- `floor(log2 x)` for `1 ≤ x < 2 ^ 200`, the range used here. -/
def floorLog2 (x : Nat) : Nat := floorLog2Aux 199 x

/-- The value of `n as f64` for a `usize` `n`: exact below `2 ^ 53`,
otherwise the 53-bit significand is rounded to nearest, ties to even.
The result of rounding an integer below `2 ^ 64` is itself an integer. -/
def natToF64 (n : Nat) : Nat :=
  if floorLog2 n ≤ 52 then n
  else roundNE n (2 ^ (floorLog2 n - 52)) * 2 ^ (floorLog2 n - 52)

/-- `(a / b).ceil() as usize` on two nonnegative integer-valued doubles
`a`, `b`: the quotient is rounded to the double grid (53-bit significand
at the exponent of `a / b`, found via `floorLog2` of the `2 ^ 64`-scaled
quotient), its ceiling taken, and the result saturated at `usize::MAX`
(`x / 0.0` is infinity for `x > 0`, giving the saturated cast; `0 / b`
and `0 / 0` — NaN — both cast to 0). -/
def divF64Ceil (a b : Nat) : Nat :=
  if a = 0 then 0
  else if b = 0 then usizeMax
  else if 116 ≤ floorLog2 (a * 2 ^ 64 / b) then
    min (roundNE (a * 2 ^ 116) (b * 2 ^ floorLog2 (a * 2 ^ 64 / b)) *
      2 ^ (floorLog2 (a * 2 ^ 64 / b) - 116)) usizeMax
  else
    min (ceilDiv (roundNE (a * 2 ^ 116) (b * 2 ^ floorLog2 (a * 2 ^ 64 / b)))
      (2 ^ (116 - floorLog2 (a * 2 ^ 64 / b)))) usizeMax

/-- The Rust expression
`(items_len as f64 / capacity as f64).ceil() as usize`
(src/paging.rs lines 23 and 42): both operands are converted to `f64`
and the rounded quotient's ceiling is cast back to `usize`. -/
def pagesF64 (itemsLen capacity : Nat) : Nat :=
  divF64Ceil (natToF64 itemsLen) (natToF64 capacity)

/-- State of the paging controller, `struct Paging` in `src/paging.rs`.
The borrowed terminal is replaced by passing the reported terminal size
`(rows-first pair, as returned by term.size())` to the operations. -/
structure Paging where
  currentTermSize : Nat × Nat
  pages : Nat
  currentPage : Nat
  capacity : Nat
  itemsLen : Nat
  active : Bool
  activityTransition : Bool
deriving Repr, DecidableEq

/-- `Paging::new` (src/paging.rs lines 21-35):
`capacity = term.size().0 - 2`, `pages = ceil(items_len / capacity)`,
`current_page = 0`, `active = pages > 1`, `activity_transition = true`. -/
def Paging.new (termSize : Nat × Nat) (itemsLen : Nat) : Paging :=
  let capacity := termSize.fst - 2
  let pages := pagesF64 itemsLen capacity
  { currentTermSize := termSize
    pages := pages
    currentPage := 0
    capacity := capacity
    itemsLen := itemsLen
    active := decide (1 < pages)
    activityTransition := true }

/-- `Paging::update` (src/paging.rs lines 38-61), state transition only
(the `clear_last_lines` side effect on the activity transition is an
I/O effect and does not touch the paging state). -/
def Paging.update (p : Paging) (termSize : Nat × Nat) (cursorPos : Nat) : Paging :=
  let p1 :=
    if p.currentTermSize ≠ termSize then
      let capacity := termSize.fst - 2
      { p with currentTermSize := termSize
               capacity := capacity
               pages := pagesF64 p.itemsLen capacity }
    else p
  let p2 :=
    if p1.active ≠ decide (1 < p1.pages) then
      { p1 with active := decide (1 < p1.pages), activityTransition := true }
    else
      { p1 with activityTransition := false }
  if cursorPos ≠ usizeMax ∧
      (cursorPos < p2.currentPage * p2.capacity ∨
        (p2.currentPage + 1) * p2.capacity ≤ cursorPos) then
    { p2 with currentPage := cursorPos / p2.capacity }
  else
    p2

/-- `Paging::next_page` (src/paging.rs lines 105-113): returns the updated
state together with the first item index of the new page. -/
def Paging.nextPage (p : Paging) : Paging × Nat :=
  let q :=
    if p.currentPage = p.pages - 1 then { p with currentPage := 0 }
    else { p with currentPage := p.currentPage + 1 }
  (q, q.currentPage * q.capacity)

/-- `Paging::previous_page` (src/paging.rs lines 116-124). -/
def Paging.previousPage (p : Paging) : Paging × Nat :=
  let q :=
    if p.currentPage = 0 then { p with currentPage := p.pages - 1 }
    else { p with currentPage := p.currentPage - 1 }
  (q, q.currentPage * q.capacity)

lemma div_mul_self_le (a b : Nat) : a / b * b ≤ a :=
  Nat.div_mul_le_self a b

lemma lt_div_succ_mul (a b : Nat) (hb : 0 < b) : a < (a / b + 1) * b := by
  have hd : a / b * b + a % b = a := Nat.div_add_mod' a b
  have hm : a % b < b := Nat.mod_lt a hb
  calc a = a / b * b + a % b := hd.symm
    _ < a / b * b + b := Nat.add_lt_add_left hm _
    _ = (a / b + 1) * b := by ring

lemma div_eq_of_window (a b q : Nat) (_hb : 0 < b)
    (hlo : q * b ≤ a) (hhi : a < (q + 1) * b) : a / b = q :=
  Nat.div_eq_of_lt_le hlo hhi

lemma floorLog2Aux_spec : ∀ (e x : Nat), 1 ≤ x → x < 2 ^ (e + 1) →
    2 ^ floorLog2Aux e x ≤ x ∧ x < 2 ^ (floorLog2Aux e x + 1) := by
  intro e
  induction e with
  | zero =>
    intro x h1 h2
    exact ⟨by simpa [floorLog2Aux] using h1, by simpa [floorLog2Aux] using h2⟩
  | succ e ih =>
    intro x h1 h2
    by_cases hc : 2 ^ (e + 1) ≤ x
    · simp only [floorLog2Aux, if_pos hc]
      exact ⟨hc, h2⟩
    · simp only [floorLog2Aux, if_neg hc]
      exact ih x h1 (by omega)

lemma floorLog2_spec (x : Nat) (h1 : 1 ≤ x) (h2 : x < 2 ^ 200) :
    2 ^ floorLog2 x ≤ x ∧ x < 2 ^ (floorLog2 x + 1) :=
  floorLog2Aux_spec 199 x h1 h2

lemma natToF64_small (n : Nat) (h : n < 2 ^ 53) : natToF64 n = n := by
  rcases Nat.eq_zero_or_pos n with rfl | hn
  · rfl
  · have hspec := floorLog2_spec n hn (lt_trans h (by norm_num))
    have hlog : floorLog2 n ≤ 52 := by
      by_contra hcon
      have h53 : 53 ≤ floorLog2 n := by omega
      have : (2 : Nat) ^ 53 ≤ 2 ^ floorLog2 n := Nat.pow_le_pow_right (by norm_num) h53
      omega
    simp [natToF64, hlog]

lemma roundNE_err (N D : Nat) (hD : 0 < D) :
    2 * N ≤ 2 * (D * roundNE N D) + D ∧ 2 * (D * roundNE N D) ≤ 2 * N + D := by
  have hdm := Nat.div_add_mod N D
  have hr : N % D < D := Nat.mod_lt _ hD
  have hplus : D * (N / D + 1) = D * (N / D) + D := by ring
  have hr0 : 0 ≤ N % D := Nat.zero_le _
  unfold roundNE
  split_ifs with h1 h2 h3
  · exact ⟨by linarith, by linarith⟩
  · rw [hplus]
    exact ⟨by linarith, by linarith⟩
  · have heq : 2 * (N % D) = D := by omega
    exact ⟨by linarith, by linarith⟩
  · have heq : 2 * (N % D) = D := by omega
    rw [hplus]
    exact ⟨by linarith, by linarith⟩

lemma ceilDiv_spec (a b : Nat) (_ha : 0 < a) (hb : 0 < b) :
    a ≤ b * ceilDiv a b ∧ b * ceilDiv a b < a + b := by
  unfold ceilDiv
  have hdm := Nat.div_add_mod (a + b - 1) b
  have hr : (a + b - 1) % b < b := Nat.mod_lt _ hb
  have hr0 : 0 ≤ (a + b - 1) % b := Nat.zero_le _
  have hab : a + b - 1 + 1 = a + b := by omega
  constructor <;> linarith

lemma divF64Ceil_exact (a b : Nat) (ha0 : 0 < a) (ha : a < 2 ^ 52)
    (hb0 : 0 < b) (hb : b < 2 ^ 16) : divF64Ceil a b = ceilDiv a b := by
  have hble : b ≤ a * 2 ^ 64 := by
    calc b ≤ 2 ^ 16 := le_of_lt hb
      _ ≤ 2 ^ 64 := by norm_num
      _ ≤ a * 2 ^ 64 := Nat.le_mul_of_pos_left _ ha0
  have hx1 : 1 ≤ a * 2 ^ 64 / b := (Nat.one_le_div_iff hb0).mpr hble
  have hp64 : (0 : Nat) < 2 ^ 64 := Nat.pos_pow_of_pos _ (by norm_num)
  have hx2 : a * 2 ^ 64 / b < 2 ^ 200 := by
    refine lt_of_le_of_lt (Nat.div_le_self _ _) ?_
    calc a * 2 ^ 64 < 2 ^ 52 * 2 ^ 64 := (Nat.mul_lt_mul_right hp64).mpr ha
      _ < 2 ^ 200 := by norm_num
  obtain ⟨hlo, hhi⟩ := floorLog2_spec _ hx1 hx2
  have hF1a : 2 ^ floorLog2 (a * 2 ^ 64 / b) * b ≤ a * 2 ^ 64 :=
    (Nat.le_div_iff_mul_le hb0).mp hlo
  have hF1b : a * 2 ^ 64 < 2 ^ (floorLog2 (a * 2 ^ 64 / b) + 1) * b :=
    (Nat.div_lt_iff_lt_mul hb0).mp hhi
  have hep115 : floorLog2 (a * 2 ^ 64 / b) ≤ 115 := by
    by_contra hcon
    have h116 : 116 ≤ floorLog2 (a * 2 ^ 64 / b) := by omega
    have hp : (2 : Nat) ^ 116 ≤ 2 ^ floorLog2 (a * 2 ^ 64 / b) :=
      Nat.pow_le_pow_right (by norm_num) h116
    have hbig : (2 : Nat) ^ 116 * 1 ≤ a * 2 ^ 64 := by
      calc (2 : Nat) ^ 116 * 1 ≤ 2 ^ floorLog2 (a * 2 ^ 64 / b) * b := by
            exact Nat.mul_le_mul hp hb0
        _ ≤ a * 2 ^ 64 := hF1a
    have hsmall : a * 2 ^ 64 < 2 ^ 52 * 2 ^ 64 :=
      (Nat.mul_lt_mul_right hp64).mpr ha
    have : (2 : Nat) ^ 52 * 2 ^ 64 = 2 ^ 116 := by norm_num
    omega
  have hane : ¬ (a = 0) := by omega
  have hbne : ¬ (b = 0) := by omega
  have hnobr : ¬ (116 ≤ floorLog2 (a * 2 ^ 64 / b)) := by omega
  unfold divF64Ceil
  rw [if_neg hane, if_neg hbne, if_neg hnobr]
  set ep := floorLog2 (a * 2 ^ 64 / b) with hepdef
  set t := 116 - ep with htdef
  set D := b * 2 ^ ep with hDdef
  set m := roundNE (a * 2 ^ 116) D with hmdef
  set K := ceilDiv a b with hKdef
  have hD0 : 0 < D := by
    rw [hDdef]
    exact Nat.mul_pos hb0 (Nat.pos_pow_of_pos _ (by norm_num))
  obtain ⟨hE1, hE2⟩ := roundNE_err (a * 2 ^ 116) D hD0
  obtain ⟨hKa, hKb⟩ := ceilDiv_spec a b ha0 hb0
  have h116 : D * 2 ^ t = b * 2 ^ 116 := by
    rw [hDdef, htdef, mul_assoc, ← pow_add,
      show ep + (116 - ep) = 116 from by omega]
  have h3 : D * (K * 2 ^ t) = b * 2 ^ 116 * K := by
    calc D * (K * 2 ^ t) = D * 2 ^ t * K := by ring
      _ = b * 2 ^ 116 * K := by rw [h116]
  have hDle : D ≤ a * 2 ^ 64 := by
    rw [hDdef, mul_comm]
    exact hF1a
  -- upper bound: m ≤ K * 2 ^ t
  have hm_up : m ≤ K * 2 ^ t := by
    by_contra hcon
    have hcon' : K * 2 ^ t + 1 ≤ m := by omega
    have h2 : D * (K * 2 ^ t + 1) ≤ D * m := Nat.mul_le_mul_left D hcon'
    have h5 : D * (K * 2 ^ t + 1) = D * (K * 2 ^ t) + D := by ring
    have h4 : a * 2 ^ 116 ≤ b * K * 2 ^ 116 := Nat.mul_le_mul_right _ hKa
    have hflip : b * 2 ^ 116 * K = b * K * 2 ^ 116 := by ring
    linarith
  -- lower bound: K * 2 ^ t < m + 2 ^ t
  have hm_lo : K * 2 ^ t < m + 2 ^ t := by
    by_contra hcon
    have hcon' : m + 2 ^ t ≤ K * 2 ^ t := by omega
    have h2 : D * (m + 2 ^ t) ≤ D * (K * 2 ^ t) := Nat.mul_le_mul_left D hcon'
    have h5 : D * (m + 2 ^ t) = D * m + D * 2 ^ t := by ring
    have step1 : D * m + b * 2 ^ 116 ≤ b * 2 ^ 116 * K := by linarith
    have hsucc : b * K + 1 ≤ a + b := hKb
    have step3 : (b * K + 1) * 2 ^ 116 ≤ (a + b) * 2 ^ 116 :=
      Nat.mul_le_mul_right _ hsucc
    have hexp1 : (b * K + 1) * 2 ^ 116 = b * 2 ^ 116 * K + 2 ^ 116 := by ring
    have hexp2 : (a + b) * 2 ^ 116 = a * 2 ^ 116 + b * 2 ^ 116 := by ring
    have step4 : 2 * 2 ^ 116 ≤ D := by linarith
    have ha' : a + 1 ≤ 2 ^ 52 := ha
    have h7 : (a + 1) * 2 ^ 64 ≤ 2 ^ 52 * 2 ^ 64 := Nat.mul_le_mul_right _ ha'
    have hexp3 : (a + 1) * 2 ^ 64 = a * 2 ^ 64 + 2 ^ 64 := by ring
    have hexp4 : (2 : Nat) ^ 52 * 2 ^ 64 = 2 ^ 116 := by norm_num
    have hpos : (0 : Nat) < 2 ^ 64 := Nat.pos_pow_of_pos _ (by norm_num)
    linarith
  -- conclude: ceilDiv m (2 ^ t) = K, then the saturating min is inert
  have ht0 : (1 : Nat) ≤ 2 ^ t := Nat.one_le_two_pow
  have hlow : K * 2 ^ t ≤ m + 2 ^ t - 1 := Nat.le_sub_one_of_lt hm_lo
  have hupp : m + 2 ^ t - 1 < (K + 1) * 2 ^ t := by
    have hplus : (K + 1) * 2 ^ t = K * 2 ^ t + 2 ^ t := by ring
    rw [hplus]
    have hstep : m + 2 ^ t - 1 < m + 2 ^ t := by omega
    exact lt_of_lt_of_le hstep (Nat.add_le_add_right hm_up _)
  have hceil : ceilDiv m (2 ^ t) = K := by
    unfold ceilDiv
    exact Nat.div_eq_of_lt_le hlow hupp
  rw [hceil]
  have hKbound : K ≤ usizeMax := by
    have h1 : K ≤ a + b - 1 := by
      rw [hKdef]
      unfold ceilDiv
      exact Nat.div_le_self _ _
    have h2 : a + b - 1 ≤ 2 ^ 52 + 2 ^ 16 := by omega
    have h3 : (2 : Nat) ^ 52 + 2 ^ 16 ≤ usizeMax := by norm_num [usizeMax]
    omega
  exact min_eq_left hKbound

lemma pagesF64_exact (n cap : Nat) (hn0 : 0 < n) (hn : n < 2 ^ 52)
    (hc0 : 0 < cap) (hc : cap < 2 ^ 16) : pagesF64 n cap = ceilDiv n cap := by
  unfold pagesF64
  rw [natToF64_small n (lt_trans hn (by norm_num)),
    natToF64_small cap (lt_trans hc (by norm_num))]
  exact divF64Ceil_exact n cap hn0 hn hc0 hc

/-- Counterexample to claim C1 as stated: at terminal width 3 (capacity 1)
and `2 ^ 53 + 1` items, the constructor's `f64` computation
`(items_len as f64 / capacity as f64).ceil()` rounds `2 ^ 53 + 1` to
`2 ^ 53` (ties to even) and yields `page_count = 2 ^ 53`, not the exact
ceiling `ceil(n / capacity) = 2 ^ 53 + 1` the claim asserts for every
item count `n > 0`. -/
theorem paging_pages_counterexample :
    (Paging.new (3, 10) (2 ^ 53 + 1)).capacity = 1 ∧
    (Paging.new (3, 10) (2 ^ 53 + 1)).pages = 2 ^ 53 ∧
    ceilDiv (2 ^ 53 + 1) ((3 : Nat) - 2) = 2 ^ 53 + 1 ∧
    (Paging.new (3, 10) (2 ^ 53 + 1)).pages ≠ ceilDiv (2 ^ 53 + 1) ((3 : Nat) - 2) := by
  refine ⟨rfl, by decide, by decide, by decide⟩

/-- Claim C1 (amended): for a paging controller built from a terminal of
`u16` width `2 < w < 2 ^ 16` and an item count `0 < n < 2 ^ 52` — the
range on which the source's `f64` ceiling is exact — the constructor
sets `capacity = w - 2`, `page_count = ceil(n / capacity)` and
`active = (page_count > 1)`; after `update(cursor)` with any valid cursor
`0 ≤ cursor < n` (from an arbitrary current page `cp`), `current_page` is
the unique page `p` with `p * capacity ≤ cursor < (p + 1) * capacity`,
set as `cursor / capacity` whenever the cursor left the previous page
window; and with terminal size 10 and 25 items, `capacity = 8`,
`page_count = 4`, and cursor 9 resolves to `current_page = 1`.  (Beyond
`2 ^ 52` items the `f64` page count can fall below the exact ceiling, as
the counterexample shows.) -/
theorem paging_new_update_correct (w h n cursor cp : Nat)
    (hw : 2 < w) (hw16 : w < 2 ^ 16) (hn : 0 < n) (hn52 : n < 2 ^ 52)
    (hcur : cursor < n) (hnm : n ≤ usizeMax) :
    ((Paging.new (w, h) n).capacity = w - 2 ∧
      (Paging.new (w, h) n).pages = ceilDiv n (w - 2) ∧
      (Paging.new (w, h) n).active = decide (1 < (Paging.new (w, h) n).pages)) ∧
    (∀ p : Paging,
      p = { Paging.new (w, h) n with currentPage := cp } →
      (Paging.update p (w, h) cursor).currentPage * (w - 2) ≤ cursor ∧
      cursor < ((Paging.update p (w, h) cursor).currentPage + 1) * (w - 2) ∧
      (∀ q : Nat, q * (w - 2) ≤ cursor → cursor < (q + 1) * (w - 2) →
        q = (Paging.update p (w, h) cursor).currentPage) ∧
      ((cursor < cp * (w - 2) ∨ (cp + 1) * (w - 2) ≤ cursor) →
        (Paging.update p (w, h) cursor).currentPage = cursor / (w - 2))) ∧
    ((Paging.new (10, 10) 25).capacity = 8 ∧
      (Paging.new (10, 10) 25).pages = 4 ∧
      (Paging.update (Paging.new (10, 10) 25) (10, 10) 9).currentPage = 1) := by
  have hcap : 0 < w - 2 := by omega
  have hne : cursor ≠ usizeMax := by
    have : cursor < usizeMax := lt_of_lt_of_le hcur hnm
    omega
  have hpages : (Paging.new (w, h) n).pages = ceilDiv n (w - 2) := by
    simp only [Paging.new]
    exact pagesF64_exact n (w - 2) hn hn52 hcap (by omega)
  refine ⟨⟨rfl, hpages, rfl⟩, ?_, by decide⟩
  intro p hp
  subst hp
  show _ ∧ _ ∧ _ ∧ _
  simp only [Paging.update, Paging.new]
  -- the terminal size is unchanged and the activity flag already matches,
  -- so only the cursor-window branch is live
  norm_num
  by_cases hwin : cursor < cp * (w - 2) ∨ (cp + 1) * (w - 2) ≤ cursor
  · have hcond : cursor ≠ usizeMax ∧
        (cursor < cp * (w - 2) ∨ (cp + 1) * (w - 2) ≤ cursor) := ⟨hne, hwin⟩
    simp only [if_pos hcond]
    refine ⟨div_mul_self_le cursor (w - 2), lt_div_succ_mul cursor (w - 2) hcap, ?_, ?_⟩
    · intro q hlo hhi
      exact (div_eq_of_window cursor (w - 2) q hcap hlo hhi).symm
    · intro _; trivial
  · have hcond : ¬ (cursor ≠ usizeMax ∧
        (cursor < cp * (w - 2) ∨ (cp + 1) * (w - 2) ≤ cursor)) := by
      intro hco; exact hwin hco.2
    simp only [if_neg hcond]
    push_neg at hwin
    refine ⟨hwin.1, hwin.2, ?_, ?_⟩
    · intro q hlo hhi
      have h1 := div_eq_of_window cursor (w - 2) q hcap hlo hhi
      have h2 := div_eq_of_window cursor (w - 2) cp hcap hwin.1 hwin.2
      omega
    · intro hco
      rcases hco with hco | hco
      · exact absurd hco (by omega)
      · exact absurd hco (by omega)

/-- Witness for C1 at terminal size `(10, 10)`, 25 items, cursor 9,
current page 0. -/
theorem paging_new_update_correct_witness :
    2 < 10 ∧ 0 < 25 ∧ 9 < 25 ∧ 25 ≤ usizeMax ∧
    ((Paging.new (10, 10) 25).capacity = 10 - 2 ∧
      (Paging.new (10, 10) 25).pages = ceilDiv 25 (10 - 2) ∧
      (Paging.new (10, 10) 25).active =
        decide (1 < (Paging.new (10, 10) 25).pages)) := by
  have hm : (25 : Nat) ≤ usizeMax := by norm_num [usizeMax]
  have h := paging_new_update_correct 10 10 25 9 0 (by norm_num) (by norm_num)
    (by norm_num) (by norm_num) (by norm_num) hm
  exact ⟨by norm_num, by norm_num, by norm_num, hm, h.1⟩

/-! ## Incremental renderer (`TermThemeRenderer`, src/theme.rs) -/

/-- Mutable state of `TermThemeRenderer` (src/theme.rs lines 358-364); the
borrowed terminal and theme are abstracted away, formatted strings are
passed in as character lists. -/
structure RenderState where
  height : Nat
  promptHeight : Nat
  promptsResetHeight : Bool
deriving Repr, DecidableEq

/-- `TermThemeRenderer::new` (src/theme.rs lines 367-375). -/
def RenderState.new : RenderState :=
  { height := 0, promptHeight := 0, promptsResetHeight := true }

/-- The number of newline characters in a formatted buffer:
`buf.chars().filter(|&x| x == '\n').count()`. -/
def newlineCount (buf : List Char) : Nat :=
  buf.countP (fun c => c == '\n')

/-- `TermThemeRenderer::write_formatted_str` (src/theme.rs lines 389-399):
the height grows by the number of embedded newlines only. -/
def RenderState.writeFormattedStr (st : RenderState) (buf : List Char) : RenderState :=
  { st with height := st.height + newlineCount buf }

/-- `TermThemeRenderer::write_formatted_line` (src/theme.rs lines 401-411):
the height grows by the number of embedded newlines plus one. -/
def RenderState.writeFormattedLine (st : RenderState) (buf : List Char) : RenderState :=
  { st with height := st.height + (newlineCount buf + 1) }

/-- `TermThemeRenderer::add_line` (src/theme.rs lines 385-387). -/
def RenderState.addLine (st : RenderState) : RenderState :=
  { st with height := st.height + 1 }

/-- `TermThemeRenderer::clear` (src/theme.rs lines 484-489): returns the
new state together with the number of terminal lines passed to
`clear_last_lines`. -/
def RenderState.clearAll (st : RenderState) : RenderState × Nat :=
  ({ st with height := 0 }, st.height + st.promptHeight)

/-- `TermThemeRenderer::clear_preserve_prompt` (src/theme.rs lines
491-502): one extra erased line per recorded item length exceeding the
second component of the terminal size; returns the new state and the
number of erased lines. -/
def RenderState.clearPreservePrompt (st : RenderState) (termSize : Nat × Nat)
    (sizeVec : List Nat) : RenderState × Nat :=
  let newHeight := st.height + sizeVec.countP (fun s => termSize.snd < s)
  ({ st with height := 0 }, newHeight)

/-- Renderer operations appearing in a prompt's redraw cycle, for stating
the height-tracking invariant. -/
inductive ROp where
  | writeLine (buf : List Char)
  | clearOp
deriving Repr, DecidableEq

/-- Run a sequence of renderer operations from a given state. -/
def execRender : RenderState → List ROp → RenderState
  | st, [] => st
  | st, ROp.writeLine buf :: ops => execRender (st.writeFormattedLine buf) ops
  | st, ROp.clearOp :: ops => execRender (st.clearAll).fst ops

/-- The number of terminal lines written since the last clear and not yet
erased, accumulated along an operation sequence. -/
def unerasedLines : Nat → List ROp → Nat
  | acc, [] => acc
  | acc, ROp.writeLine buf :: ops => unerasedLines (acc + (newlineCount buf + 1)) ops
  | _, ROp.clearOp :: ops => unerasedLines 0 ops

lemma execRender_height (ops : List ROp) :
    ∀ st : RenderState, (execRender st ops).height = unerasedLines st.height ops := by
  induction ops with
  | nil => intro st; rfl
  | cons op ops ih =>
    intro st
    cases op with
    | writeLine buf =>
      simpa [execRender, unerasedLines, RenderState.writeFormattedLine] using
        ih (st.writeFormattedLine buf)
    | clearOp =>
      simpa [execRender, unerasedLines, RenderState.clearAll] using
        ih (st.clearAll).fst

/-- Claim C3: the height counter tracks unerased written lines: a line
write increments the height by one plus the embedded newline count;
`clear` erases exactly `height + prompt_height` lines and resets the
height to 0; `clear_preserve_prompt` erases the height plus one extra
line per item length exceeding the terminal width and resets the height
to 0; and along any sequence of line writes and clears the height always
equals the number of lines written since the last clear. -/
theorem renderer_height_invariant :
    (∀ (st : RenderState) (buf : List Char),
      (st.writeFormattedLine buf).height = st.height + 1 + newlineCount buf) ∧
    (∀ st : RenderState,
      (st.clearAll).snd = st.height + st.promptHeight ∧
      (st.clearAll).fst.height = 0) ∧
    (∀ (st : RenderState) (termSize : Nat × Nat) (sizeVec : List Nat),
      (st.clearPreservePrompt termSize sizeVec).snd =
        st.height + sizeVec.countP (fun s => termSize.snd < s) ∧
      (st.clearPreservePrompt termSize sizeVec).fst.height = 0) ∧
    (∀ ops : List ROp,
      (execRender RenderState.new ops).height = unerasedLines 0 ops) := by
  refine ⟨?_, ?_, ?_, ?_⟩
  · intro st buf
    simp [RenderState.writeFormattedLine]
    omega
  · intro st
    exact ⟨rfl, rfl⟩
  · intro st termSize sizeVec
    exact ⟨rfl, rfl⟩
  · intro ops
    simpa using execRender_height ops RenderState.new

/-! ## Keys and the shared cursor-cycling handlers -/

/-- The subset of `console::Key` values consumed by the prompt loops. -/
inductive Key where
  | arrowDown
  | arrowUp
  | arrowLeft
  | arrowRight
  | enter
  | escape
  | tab
  | backTab
  | backspace
  | unknown
  | char (c : Char)
deriving Repr, DecidableEq

/-- The Down/`j`/Tab cursor computation shared by select, multi-select and
sort (for example src/prompts/select.rs lines 313-319):
`if sel == !0 { 0 } else { (sel as u64 + 1) % items.len() }`. -/
def selDown (n sel : Nat) : Nat :=
  if sel = usizeMax then 0 else (sel + 1) % n

/-- The Up/`k`/Shift-Tab cursor computation (for example
src/prompts/select.rs lines 334-341):
`if sel == !0 { len - 1 } else { (sel as i64 - 1 + len) % len }`. -/
def selUp (n sel : Nat) : Nat :=
  if sel = usizeMax then n - 1
  else (((sel : Int) - 1 + (n : Int)) % (n : Int)).toNat

lemma selDown_eq_mod (n c : Nat) (hc : c < usizeMax) :
    selDown n c = (c + 1) % n := by
  simp [selDown, Nat.ne_of_lt hc]

lemma selUp_eq_mod (n c : Nat) (hn : 0 < n) (hc : c < usizeMax) :
    selUp n c = (c + n - 1) % n := by
  simp only [selUp, if_neg (Nat.ne_of_lt hc)]
  have hcast : ((c : Int) - 1 + (n : Int)) = ((c + n - 1 : Nat) : Int) := by
    omega
  rw [hcast, ← Int.natCast_mod, Int.toNat_natCast]

lemma selDown_iterate (n : Nat) (hn : 0 < n) (hnm : n ≤ usizeMax) :
    ∀ k : Nat, (selDown n)^[k] 0 = k % n := by
  intro k
  induction k with
  | zero => simp
  | succ k ih =>
    rw [Function.iterate_succ_apply', ih]
    have hlt : k % n < n := Nat.mod_lt _ hn
    have hne : k % n ≠ usizeMax := by omega
    simp only [selDown, if_neg hne]
    exact Nat.mod_add_mod k n 1

/-! ## Select prompt (src/prompts/select.rs) -/

/-- Error kinds surfaced to callers by the interaction entry points. -/
inductive DErr where
  | notATerminal
  | emptyItemList
  | ioFailure
deriving Repr, DecidableEq

/-- Coarse terminal-side events, recorded so that "nothing was rendered
and no key was read" is expressible: one `renderPass` per redraw of the
prompt plus visible items, one `keyRead` per `term.read_key()`. -/
inductive Ev where
  | renderPass
  | keyRead
deriving Repr, DecidableEq

/-- `SelectResult` (src/prompts/select.rs lines 14-18). -/
structure SelectResultM where
  index : Option Nat
  key : Option Key
deriving Repr, DecidableEq

/-- Outcome of a modelled select interaction; `outOfInput` is a model
artifact for key streams that end before the loop returns. -/
inductive SelOutcome where
  | ok (r : SelectResultM)
  | err (e : DErr)
  | outOfInput
deriving Repr, DecidableEq

/-- Builder state of `Select` (src/prompts/select.rs lines 42-51). -/
structure SelectCfg where
  default : Nat
  items : List String
  prompt : Option String
  report : Bool
  clear : Bool
  maxLength : Option Nat
deriving Repr, DecidableEq

/-- Modelled from the spec: `Select::_interact_on` calls a three-argument
`Paging::new(term, items_len, max_length)` which is absent from
`src/paging.rs` (the file only defines the two-argument constructor).
Per spec section 4.2 the `max_length_override`, when present, caps
`capacity` regardless of terminal size; without an override this is
exactly `Paging.new`. -/
def Paging.newWithMax (termSize : Nat × Nat) (itemsLen : Nat)
    (maxLength : Option Nat) : Paging :=
  match maxLength with
  | none => Paging.new termSize itemsLen
  | some m =>
    let base := Paging.new termSize itemsLen
    let cap := min base.capacity m
    { base with
      capacity := cap
      pages := ceilDiv itemsLen cap
      active := decide (1 < ceilDiv itemsLen cap) }

/-- Modelled from the spec: `Select::_interact_on` calls
`paging.update_page(sel)` which is absent from `src/paging.rs`.  Per spec
section 4.2: if `cursor_index` falls outside
`[current_page*capacity, (current_page+1)*capacity)`, set
`current_page = cursor_index / capacity`. -/
def Paging.updatePage (p : Paging) (cursor : Nat) : Paging :=
  if cursor < p.currentPage * p.capacity ∨
      (p.currentPage + 1) * p.capacity ≤ cursor then
    { p with currentPage := cursor / p.capacity }
  else
    p

/-- Cursor-and-paging state of the select loop. -/
structure SelState where
  paging : Paging
  sel : Nat
deriving Repr, DecidableEq

/-- The non-returning key handlers of `Select::_interact_on`
(src/prompts/select.rs lines 313-351): Down/Tab/`j`, Up/BackTab/`k`,
Left/`h` and Right/`l`; every other key leaves the state unchanged. -/
def selHandle (n : Nat) (st : SelState) (k : Key) : SelState :=
  match k with
  | Key.arrowDown => { st with sel := selDown n st.sel }
  | Key.tab => { st with sel := selDown n st.sel }
  | Key.arrowUp => { st with sel := selUp n st.sel }
  | Key.backTab => { st with sel := selUp n st.sel }
  | Key.arrowLeft =>
    if st.paging.active then
      let pr := st.paging.previousPage
      { paging := pr.fst, sel := pr.snd }
    else st
  | Key.arrowRight =>
    if st.paging.active then
      let pr := st.paging.nextPage
      { paging := pr.fst, sel := pr.snd }
    else st
  | Key.char c =>
    if c = 'j' then { st with sel := selDown n st.sel }
    else if c = 'k' then { st with sel := selUp n st.sel }
    else if c = 'h' then
      if st.paging.active then
        let pr := st.paging.previousPage
        { paging := pr.fst, sel := pr.snd }
      else st
    else if c = 'l' then
      if st.paging.active then
        let pr := st.paging.nextPage
        { paging := pr.fst, sel := pr.snd }
      else st
    else st
  | _ => st

/-- The interactive loop of `Select::_interact_on` (src/prompts/select.rs
lines 281-381).  Each iteration renders, flushes, reads one key (a read
failure propagates as `ioFailure`), dispatches it, then runs
`paging.update(sel)` and clears for the next redraw. -/
def selectLoop (cfg : SelectCfg) (termSize : Nat × Nat) (allowQuit : Bool)
    (customKeys : Option (List Key)) :
    List (Except Unit Key) → SelState → SelOutcome × List Ev
  | [], _ => (SelOutcome.outOfInput, [Ev.renderPass])
  | Except.error _ :: _, _ =>
    (SelOutcome.err DErr.ioFailure, [Ev.renderPass, Ev.keyRead])
  | Except.ok k :: rest, st =>
    let n := cfg.items.length
    if (customKeys.getD []).contains k then
      (SelOutcome.ok { index := none, key := some k }, [Ev.renderPass, Ev.keyRead])
    else if (k = Key.escape ∨ k = Key.char 'q') ∧ allowQuit then
      (SelOutcome.ok { index := none, key := none }, [Ev.renderPass, Ev.keyRead])
    else if (k = Key.enter ∨ k = Key.char ' ') ∧ st.sel ≠ usizeMax then
      (SelOutcome.ok { index := some st.sel, key := none }, [Ev.renderPass, Ev.keyRead])
    else
      let st1 := selHandle n st k
      let st2 := { st1 with paging := st1.paging.update termSize st1.sel }
      let res := selectLoop cfg termSize allowQuit customKeys rest st2
      (res.fst, Ev.renderPass :: Ev.keyRead :: res.snd)

/-- `Select::_interact_on` (src/prompts/select.rs lines 243-382): the
`is_term` check comes first, then the empty-item-list check, then the
paging controller is built and the loop entered. -/
def selectInteract (isTerm : Bool) (cfg : SelectCfg) (termSize : Nat × Nat)
    (allowQuit : Bool) (customKeys : Option (List Key))
    (keys : List (Except Unit Key)) : SelOutcome × List Ev :=
  if isTerm = false then
    (SelOutcome.err DErr.notATerminal, [])
  else if cfg.items.isEmpty then
    (SelOutcome.err DErr.emptyItemList, [])
  else
    let paging0 := Paging.newWithMax termSize cfg.items.length cfg.maxLength
    let st0 : SelState := { paging := paging0.updatePage cfg.default, sel := cfg.default }
    selectLoop cfg termSize allowQuit customKeys keys st0

/-- Caller-visible outcome of `Select::interact_on_opt`; `panicked` marks
the `.unwrap()` panic on an inner error. -/
inductive OptOutcome where
  | ok (r : Option Nat)
  | panicked
  | outOfInput
deriving Repr, DecidableEq

/-- `Select::interact_on_opt` (src/prompts/select.rs lines 199-203):
`let result = self._interact_on(term, true, None).unwrap(); Ok(result.index)`.
The `.unwrap()` turns any inner `Err` into a panic instead of returning
it. -/
def selectInteractOnOpt (isTerm : Bool) (cfg : SelectCfg) (termSize : Nat × Nat)
    (keys : List (Except Unit Key)) : OptOutcome :=
  match (selectInteract isTerm cfg termSize true none keys).fst with
  | SelOutcome.ok r => OptOutcome.ok r.index
  | SelOutcome.err _ => OptOutcome.panicked
  | SelOutcome.outOfInput => OptOutcome.outOfInput

/-- Claim C2: with paging state arbitrary and `N > 0` items, the
Down/`j`/Tab handler maps cursor `c < N` to `(c + 1) % N` and the
Up/`k`/Shift-Tab handler maps `c` to `(c - 1 + N) % N`; the no-selection
sentinel maps to 0 under Down and to `N - 1` under Up; pressing Down `N`
times from cursor 0 returns to 0, and pressing Up once from cursor 0
lands on `N - 1`. -/
theorem select_cursor_cycling (n c : Nat) (pg : Paging)
    (hn : 0 < n) (hnm : n ≤ usizeMax) (hc : c < n) :
    (∀ k, (k = Key.arrowDown ∨ k = Key.tab ∨ k = Key.char 'j') →
      (selHandle n ⟨pg, c⟩ k).sel = (c + 1) % n) ∧
    (∀ k, (k = Key.arrowUp ∨ k = Key.backTab ∨ k = Key.char 'k') →
      (selHandle n ⟨pg, c⟩ k).sel = (c + n - 1) % n) ∧
    (selHandle n ⟨pg, usizeMax⟩ Key.arrowDown).sel = 0 ∧
    (selHandle n ⟨pg, usizeMax⟩ Key.arrowUp).sel = n - 1 ∧
    ((fun s => (selHandle n ⟨pg, s⟩ Key.arrowDown).sel)^[n] 0 = 0) ∧
    (selHandle n ⟨pg, 0⟩ Key.arrowUp).sel = n - 1 := by
  have hcmax : c < usizeMax := lt_of_lt_of_le hc hnm
  have hdown : selDown n c = (c + 1) % n := selDown_eq_mod n c hcmax
  have hup : selUp n c = (c + n - 1) % n := selUp_eq_mod n c hn hcmax
  have h0max : (0 : Nat) < usizeMax := lt_of_lt_of_le hn hnm
  refine ⟨?_, ?_, ?_, ?_, ?_, ?_⟩
  · rintro k (rfl | rfl | rfl) <;> simpa [selHandle] using hdown
  · rintro k (rfl | rfl | rfl) <;> simpa [selHandle] using hup
  · simp [selHandle, selDown]
  · simp [selHandle, selUp]
  · have hfun : (fun s => (selHandle n ⟨pg, s⟩ Key.arrowDown).sel) = selDown n :=
      funext fun s => rfl
    rw [hfun, selDown_iterate n hn hnm n, Nat.mod_self]
  · have h := selUp_eq_mod n 0 hn h0max
    simpa [Nat.mod_eq_of_lt (Nat.sub_lt hn Nat.one_pos)] using h

/-- Witness for C2 with 4 items, cursor 1 and a fresh paging state. -/
theorem select_cursor_cycling_witness :
    (selHandle 4 ⟨Paging.new (24, 80) 4, 1⟩ Key.tab).sel = (1 + 1) % 4 ∧
    (selHandle 4 ⟨Paging.new (24, 80) 4, 1⟩ Key.backTab).sel = (1 + 4 - 1) % 4 ∧
    (selHandle 4 ⟨Paging.new (24, 80) 4, usizeMax⟩ Key.arrowDown).sel = 0 ∧
    ((fun s => (selHandle 4 ⟨Paging.new (24, 80) 4, s⟩ Key.arrowDown).sel)^[4] 0 = 0) ∧
    (selHandle 4 ⟨Paging.new (24, 80) 4, 0⟩ Key.arrowUp).sel = 4 - 1 := by
  have h := select_cursor_cycling 4 1 (Paging.new (24, 80) 4) (by norm_num)
    (by norm_num [usizeMax]) (by norm_num)
  exact ⟨h.1 Key.tab (by simp), h.2.1 Key.backTab (by simp), h.2.2.1,
    h.2.2.2.2.1, h.2.2.2.2.2⟩

/-! ## Multi-select prompt (src/prompts/multi_select.rs) -/

/-- Cursor, paging and checkbox state of the multi-select loop. -/
structure MSState where
  paging : Paging
  sel : Nat
  checked : List Bool
deriving Repr, DecidableEq

/-- The Space toggle (src/prompts/multi_select.rs lines 258-260):
`checked[sel] = !checked[sel]`. -/
def msToggle (checked : List Bool) (sel : Nat) : List Bool :=
  checked.set sel (!(checked.getD sel false))

/-- The non-returning key handlers of `MultiSelect::_interact_on`
(src/prompts/multi_select.rs lines 233-260): Down/`j`, Up/`k`, Left/`h`,
Right/`l` and Space; every other key leaves the state unchanged. -/
def msHandle (n : Nat) (st : MSState) (k : Key) : MSState :=
  match k with
  | Key.arrowDown => { st with sel := selDown n st.sel }
  | Key.arrowUp => { st with sel := selUp n st.sel }
  | Key.arrowLeft =>
    if st.paging.active then
      let pr := st.paging.previousPage
      { st with paging := pr.fst, sel := pr.snd }
    else st
  | Key.arrowRight =>
    if st.paging.active then
      let pr := st.paging.nextPage
      { st with paging := pr.fst, sel := pr.snd }
    else st
  | Key.char c =>
    if c = 'j' then { st with sel := selDown n st.sel }
    else if c = 'k' then { st with sel := selUp n st.sel }
    else if c = 'h' then
      if st.paging.active then
        let pr := st.paging.previousPage
        { st with paging := pr.fst, sel := pr.snd }
      else st
    else if c = 'l' then
      if st.paging.active then
        let pr := st.paging.nextPage
        { st with paging := pr.fst, sel := pr.snd }
      else st
    else if c = ' ' then { st with checked := msToggle st.checked st.sel }
    else st
  | _ => st

/-- The Enter collection (src/prompts/multi_select.rs lines 297-303):
`checked.into_iter().enumerate().filter_map(|(idx, b)| b.then(idx))`,
written with an explicit running index. -/
def collectChecked : Nat → List Bool → List Nat
  | _, [] => []
  | i, b :: bs =>
    if b then i :: collectChecked (i + 1) bs else collectChecked (i + 1) bs

/-- Outcome of a modelled multi-select or sort interaction. -/
inductive ListOutcome where
  | ok (r : Option (List Nat))
  | err (e : DErr)
  | outOfInput
deriving Repr, DecidableEq

/-- The interactive loop of `MultiSelect::_interact_on`
(src/prompts/multi_select.rs lines 214-315). -/
def msLoop (n : Nat) (termSize : Nat × Nat) (allowQuit : Bool) :
    List (Except Unit Key) → MSState → ListOutcome × List Ev
  | [], _ => (ListOutcome.outOfInput, [Ev.renderPass])
  | Except.error _ :: _, _ =>
    (ListOutcome.err DErr.ioFailure, [Ev.renderPass, Ev.keyRead])
  | Except.ok k :: rest, st =>
    if (k = Key.escape ∨ k = Key.char 'q') ∧ allowQuit then
      (ListOutcome.ok none, [Ev.renderPass, Ev.keyRead])
    else if k = Key.enter then
      (ListOutcome.ok (some (collectChecked 0 st.checked)), [Ev.renderPass, Ev.keyRead])
    else
      let st1 := msHandle n st k
      let st2 := { st1 with paging := st1.paging.update termSize st1.sel }
      let res := msLoop n termSize allowQuit rest st2
      (res.fst, Ev.renderPass :: Ev.keyRead :: res.snd)

/-- `MultiSelect::_interact_on` (src/prompts/multi_select.rs lines
186-316): the empty-item-list check comes first, before any paging or
rendering; `sel` starts at 0 and `checked` from the configured defaults. -/
def msInteract (items : List String) (defaults : List Bool) (allowQuit : Bool)
    (termSize : Nat × Nat) (keys : List (Except Unit Key)) :
    ListOutcome × List Ev :=
  if items.isEmpty then
    (ListOutcome.err DErr.emptyItemList, [])
  else
    msLoop items.length termSize allowQuit keys
      { paging := Paging.new termSize items.length, sel := 0, checked := defaults }

/-! ## Sort prompt (src/prompts/sort.rs) -/

/-- Cursor, paging, display order and grab flag of the sort loop; the
`checked` name follows the source (`let mut checked: bool = false`). -/
structure SortState where
  paging : Paging
  sel : Nat
  order : List Nat
  checked : Bool
deriving Repr, DecidableEq

/-- `Vec::swap` on the display order: exchange positions `i` and `j`. -/
def listSwap (l : List Nat) (i j : Nat) : List Nat :=
  (l.set i (l.getD j 0)).set j (l.getD i 0)

/-- The swap loop
`for index in 0..(indexes.len() - 1) { order.swap(indexes[index], indexes[index + 1]) }`
from the paged drag branches of `Sort::interact_on`. -/
def swapChain : List Nat → List Nat → List Nat
  | ord, a :: b :: rest => swapChain (listSwap ord a b) (b :: rest)
  | ord, _ => ord

/-- ArrowDown/`j` of `Sort::interact_on` (src/prompts/sort.rs lines
137-149): move the cursor down and, while grabbed and the cursor moved,
swap the slot it left with the slot it entered. -/
def sortMoveDown (n : Nat) (st : SortState) : SortState :=
  let oldSel := st.sel
  let sel := selDown n oldSel
  let order :=
    if st.checked = true ∧ oldSel ≠ sel then listSwap st.order oldSel sel
    else st.order
  { st with sel := sel, order := order }

/-- ArrowUp/`k` of `Sort::interact_on` (src/prompts/sort.rs lines
150-163). -/
def sortMoveUp (n : Nat) (st : SortState) : SortState :=
  let oldSel := st.sel
  let sel := selUp n oldSel
  let order :=
    if st.checked = true ∧ oldSel ≠ sel then listSwap st.order oldSel sel
    else st.order
  { st with sel := sel, order := order }

/-- ArrowLeft/`h` of `Sort::interact_on` (src/prompts/sort.rs lines
164-185): with active paging, jump to the previous page and, while
grabbed, drag the item across the traversed slots. -/
def sortPageLeft (n : Nat) (st : SortState) : SortState :=
  if st.paging.active then
    let oldSel := st.sel
    let oldPage := st.paging.currentPage
    let pr := st.paging.previousPage
    let sel := pr.snd
    let order :=
      if st.checked then
        let idxs :=
          if oldPage = 0 then
            (List.range' 0 (oldSel + 1)).reverse ++ (List.range' sel (n - sel)).reverse
          else
            (List.range' sel (oldSel + 1 - sel)).reverse
        swapChain st.order idxs
      else st.order
    { paging := pr.fst, sel := sel, order := order, checked := st.checked }
  else st

/-- ArrowRight/`l` of `Sort::interact_on` (src/prompts/sort.rs lines
186-207). -/
def sortPageRight (n : Nat) (st : SortState) : SortState :=
  if st.paging.active then
    let oldSel := st.sel
    let oldPage := st.paging.currentPage
    let pr := st.paging.nextPage
    let sel := pr.snd
    let order :=
      if st.checked then
        let idxs :=
          if oldPage = st.paging.pages - 1 then
            List.range' oldSel (n - oldSel) ++ [0]
          else
            List.range' oldSel (sel + 1 - oldSel)
        swapChain st.order idxs
      else st.order
    { paging := pr.fst, sel := sel, order := order, checked := st.checked }
  else st

/-- The non-returning key handlers of `Sort::interact_on`
(src/prompts/sort.rs lines 136-210); Space toggles the grab flag, Escape
is not handled (the source carries a TODO) and falls through unchanged. -/
def sortHandle (n : Nat) (st : SortState) (k : Key) : SortState :=
  match k with
  | Key.arrowDown => sortMoveDown n st
  | Key.arrowUp => sortMoveUp n st
  | Key.arrowLeft => sortPageLeft n st
  | Key.arrowRight => sortPageRight n st
  | Key.char c =>
    if c = 'j' then sortMoveDown n st
    else if c = 'k' then sortMoveUp n st
    else if c = 'h' then sortPageLeft n st
    else if c = 'l' then sortPageRight n st
    else if c = ' ' then { st with checked := !st.checked }
    else st
  | _ => st

/-- The interactive loop of `Sort::interact_on` (src/prompts/sort.rs
lines 120-241); Enter returns the current display order. -/
def sortLoop (n : Nat) (termSize : Nat × Nat) :
    List (Except Unit Key) → SortState → ListOutcome × List Ev
  | [], _ => (ListOutcome.outOfInput, [Ev.renderPass])
  | Except.error _ :: _, _ =>
    (ListOutcome.err DErr.ioFailure, [Ev.renderPass, Ev.keyRead])
  | Except.ok k :: rest, st =>
    if k = Key.enter then
      (ListOutcome.ok (some st.order), [Ev.renderPass, Ev.keyRead])
    else
      let st1 := sortHandle n st k
      let st2 := { st1 with paging := st1.paging.update termSize st1.sel }
      let res := sortLoop n termSize rest st2
      (res.fst, Ev.renderPass :: Ev.keyRead :: res.snd)

/-- `Sort::interact_on` (src/prompts/sort.rs lines 96-242): the
empty-item-list check comes first; the display order starts as the
identity permutation and the grab flag as false. -/
def sortInteract (items : List String) (termSize : Nat × Nat)
    (keys : List (Except Unit Key)) : ListOutcome × List Ev :=
  if items.isEmpty then
    (ListOutcome.err DErr.emptyItemList, [])
  else
    sortLoop items.length termSize keys
      { paging := Paging.new termSize items.length
        sel := 0
        order := List.range items.length
        checked := false }

/-! ## C4: multi-select toggling and Enter collection -/

lemma msToggle_msToggle (c : List Bool) : ∀ s : Nat, s < c.length →
    msToggle (msToggle c s) s = c := by
  induction c with
  | nil => intro s hs; simp at hs
  | cons b bs ih =>
    intro s hs
    cases s with
    | zero => simp [msToggle]
    | succ s =>
      have hs' : s < bs.length := by simpa using hs
      simpa [msToggle] using ih s hs'

lemma msHandle_checked (n : Nat) (st : MSState) (k : Key)
    (hk : k ≠ Key.char ' ') : (msHandle n st k).checked = st.checked := by
  cases k with
  | char c =>
    have hc : c ≠ ' ' := fun hcc => hk (by rw [hcc])
    simp only [msHandle]
    split_ifs <;> simp_all
  | arrowLeft => simp only [msHandle]; split <;> rfl
  | arrowRight => simp only [msHandle]; split <;> rfl
  | arrowDown => rfl
  | arrowUp => rfl
  | enter => rfl
  | escape => rfl
  | tab => rfl
  | backTab => rfl
  | backspace => rfl
  | unknown => rfl

lemma mem_collectChecked (bs : List Bool) : ∀ (k i : Nat),
    i ∈ collectChecked k bs ↔
      ∃ m, m < bs.length ∧ bs.getD m false = true ∧ i = k + m := by
  induction bs with
  | nil => intro k i; simp [collectChecked]
  | cons b bs ih =>
    intro k i
    cases b with
    | true =>
      simp only [collectChecked, if_pos]
      constructor
      · intro h
        rcases List.mem_cons.mp h with rfl | h
        · exact ⟨0, by simp, by simp, by simp⟩
        · rcases (ih (k + 1) i).mp h with ⟨m, hm, hg, hi⟩
          exact ⟨m + 1, by simpa using hm, by simpa using hg, by omega⟩
      · rintro ⟨m, hm, hg, rfl⟩
        cases m with
        | zero => simp
        | succ m =>
          refine List.mem_cons_of_mem _ ((ih (k + 1) _).mpr ⟨m, ?_, ?_, ?_⟩)
          · simpa using hm
          · simpa using hg
          · omega
    | false =>
      simp only [collectChecked]
      rw [if_neg Bool.false_ne_true, ih (k + 1) i]
      constructor
      · rintro ⟨m, hm, hg, rfl⟩
        exact ⟨m + 1, by simpa using hm, by simpa using hg, by omega⟩
      · rintro ⟨m, hm, hg, rfl⟩
        cases m with
        | zero => simp at hg
        | succ m =>
          exact ⟨m, by simpa using hm, by simpa using hg, by omega⟩

lemma collectChecked_pairwise (bs : List Bool) : ∀ k : Nat,
    (collectChecked k bs).Pairwise (fun a b => a < b) := by
  induction bs with
  | nil => intro k; simp [collectChecked]
  | cons b bs ih =>
    intro k
    cases b with
    | true =>
      simp only [collectChecked, if_pos]
      refine List.Pairwise.cons ?_ (ih (k + 1))
      intro j hj
      rcases (mem_collectChecked bs (k + 1) j).mp hj with ⟨m, _, _, rfl⟩
      omega
    | false =>
      simpa [collectChecked] using ih (k + 1)

/-- The navigation keys of the multi-select loop: cursor and page moves,
excluding Space, Enter and the quit keys. -/
def msNavKey (k : Key) : Prop :=
  k ∈ [Key.arrowDown, Key.arrowUp, Key.arrowLeft, Key.arrowRight,
    Key.char 'j', Key.char 'k', Key.char 'h', Key.char 'l']

lemma msLoop_nav (n : Nat) (ts : Nat × Nat) (ks : List Key) :
    ∀ st : MSState, (∀ k ∈ ks, msNavKey k) →
      (msLoop n ts false (ks.map Except.ok ++ [Except.ok Key.enter]) st).fst =
        ListOutcome.ok (some (collectChecked 0 st.checked)) := by
  induction ks with
  | nil =>
    intro st _
    simp [msLoop]
  | cons k ks ih =>
    intro st hnav
    have hrest : ∀ x ∈ ks, msNavKey x := fun x hx => hnav x (List.mem_cons_of_mem _ hx)
    have hk : k = Key.arrowDown ∨ k = Key.arrowUp ∨ k = Key.arrowLeft ∨
        k = Key.arrowRight ∨ k = Key.char 'j' ∨ k = Key.char 'k' ∨
        k = Key.char 'h' ∨ k = Key.char 'l' := by
      simpa [msNavKey] using hnav k (List.mem_cons_self _ _)
    rcases hk with rfl | rfl | rfl | rfl | rfl | rfl | rfl | rfl <;>
      (simp only [List.map_cons, List.cons_append, msLoop]
       rw [if_neg (by decide), if_neg (by decide)]
       refine Eq.trans (ih _ hrest) ?_
       dsimp only
       rw [msHandle_checked n st _ (by decide)])

/-- Claim C4: in the multi-select prompt, toggling Space twice on the same
index restores `checked`; navigation keys never change `checked`; after
any run of navigation keys, Enter returns exactly the set of checked
indices in ascending order; and for four items all initially unchecked,
the key sequence Space, Down, Down, Space, Enter returns `[0, 2]`. -/
theorem multi_select_toggle_enter (n : Nat) (ts : Nat × Nat) :
    (∀ (c : List Bool) (s : Nat), s < c.length →
      msToggle (msToggle c s) s = c) ∧
    (∀ (st : MSState) (k : Key), k ≠ Key.char ' ' →
      (msHandle n st k).checked = st.checked) ∧
    (∀ (c : List Bool) (i : Nat),
      i ∈ collectChecked 0 c ↔ ∃ m, m < c.length ∧ c.getD m false = true ∧ i = m) ∧
    (∀ c : List Bool, (collectChecked 0 c).Pairwise (fun a b => a < b)) ∧
    (∀ (st : MSState) (ks : List Key), (∀ k ∈ ks, msNavKey k) →
      (msLoop n ts false (ks.map Except.ok ++ [Except.ok Key.enter]) st).fst =
        ListOutcome.ok (some (collectChecked 0 st.checked))) ∧
    ((msInteract ["Ice Cream", "Vanilla Cupcake", "Chocolate Muffin", "Mustard"]
        [false, false, false, false] false (24, 80)
        [Except.ok (Key.char ' '), Except.ok Key.arrowDown, Except.ok Key.arrowDown,
          Except.ok (Key.char ' '), Except.ok Key.enter]).fst =
      ListOutcome.ok (some [0, 2])) := by
  refine ⟨msToggle_msToggle, msHandle_checked n, ?_, fun c => collectChecked_pairwise c 0,
    fun st ks => msLoop_nav n ts ks st, by decide⟩
  intro c i
  simpa using mem_collectChecked c 0 i

/-- Witness for C4: toggling index 0 of `[false, true]` twice, and a
Down-then-Enter run from a state with `checked = [true, false]`. -/
theorem multi_select_toggle_enter_witness :
    msToggle (msToggle [false, true] 0) 0 = [false, true] ∧
    (msLoop 2 (24, 80) false [Except.ok Key.arrowDown, Except.ok Key.enter]
        ⟨Paging.new (24, 80) 2, 0, [true, false]⟩).fst =
      ListOutcome.ok (some (collectChecked 0 [true, false])) := by
  have h := multi_select_toggle_enter 2 (24, 80)
  refine ⟨h.1 [false, true] 0 (by norm_num), ?_⟩
  have h5 := h.2.2.2.2.1 ⟨Paging.new (24, 80) 2, 0, [true, false]⟩ [Key.arrowDown]
    (by intro k hk; simp at hk; subst hk; simp [msNavKey])
  simpa using h5

/-! ## C5: sortable-list grab and swap -/

/-- Claim C5: in the sort prompt, Space toggles the grab flag without
touching the order; while grabbed, a Down or Up cursor move swaps the
display-order slot the cursor leaves with the slot it enters; and for
items A, B, C with initial order `[0, 1, 2]`, the key sequence Space,
Down, Enter returns the permutation `[1, 0, 2]`. -/
theorem sort_grab_swap (n : Nat) :
    (∀ st : SortState,
      (sortHandle n st (Key.char ' ')).checked = !st.checked ∧
      (sortHandle n st (Key.char ' ')).order = st.order ∧
      (sortHandle n st (Key.char ' ')).sel = st.sel) ∧
    (∀ st : SortState, st.checked = true → selDown n st.sel ≠ st.sel →
      (sortHandle n st Key.arrowDown).order =
        listSwap st.order st.sel (selDown n st.sel) ∧
      (sortHandle n st Key.arrowDown).sel = selDown n st.sel) ∧
    (∀ st : SortState, st.checked = true → selUp n st.sel ≠ st.sel →
      (sortHandle n st Key.arrowUp).order =
        listSwap st.order st.sel (selUp n st.sel) ∧
      (sortHandle n st Key.arrowUp).sel = selUp n st.sel) ∧
    ((sortInteract ["A", "B", "C"] (24, 80)
        [Except.ok (Key.char ' '), Except.ok Key.arrowDown, Except.ok Key.enter]).fst =
      ListOutcome.ok (some [1, 0, 2])) := by
  refine ⟨?_, ?_, ?_, by decide⟩
  · intro st
    simp [sortHandle]
  · intro st hc hne
    simp [sortHandle, sortMoveDown, hc, Ne.symm hne]
  · intro st hc hne
    simp [sortHandle, sortMoveUp, hc, Ne.symm hne]

/-- Witness for C5: a grabbed state over three items with the cursor on
slot 0. -/
theorem sort_grab_swap_witness :
    (sortHandle 3 ⟨Paging.new (24, 80) 3, 0, [0, 1, 2], true⟩ Key.arrowDown).order =
      listSwap [0, 1, 2] 0 (selDown 3 0) ∧
    (sortHandle 3 ⟨Paging.new (24, 80) 3, 0, [0, 1, 2], true⟩ Key.arrowDown).sel =
      selDown 3 0 := by
  have h := (sort_grab_swap 3).2.1 ⟨Paging.new (24, 80) 3, 0, [0, 1, 2], true⟩
    rfl (by decide)
  exact h

/-! ## C9: empty item lists, C10: I/O failure propagation -/

/-- Counterexample to claim C9 as stated: a single-select interaction
invoked with an empty item list on a non-interactive terminal does not
return the empty-item-list error — `Select::_interact_on` checks
`term.is_term()` first and returns the not-a-terminal error instead. -/
theorem select_empty_items_counterexample :
    (selectInteract false
        { default := usizeMax, items := [], prompt := none, report := false,
          clear := true, maxLength := none } (24, 80) false none []).fst ≠
      SelOutcome.err DErr.emptyItemList ∧
    (selectInteract false
        { default := usizeMax, items := [], prompt := none, report := false,
          clear := true, maxLength := none } (24, 80) false none []).fst =
      SelOutcome.err DErr.notATerminal := by
  constructor
  · decide
  · rfl

/-- Claim C9 (amended): a multi-select or sort interaction invoked with an
empty item list, and a single-select interaction on an interactive
terminal invoked with an empty item list, return the empty-item-list
configuration error immediately — the event log is empty, so no key was
read and nothing was rendered, and no retry happens; a single-select
interaction on a non-interactive terminal instead returns the
not-a-terminal configuration error first, equally immediately. -/
theorem empty_item_list_errors (cfg : SelectCfg) (ts : Nat × Nat)
    (allowQuit : Bool) (customKeys : Option (List Key))
    (keys : List (Except Unit Key)) (defaults : List Bool) :
    (cfg.items = [] →
      selectInteract true cfg ts allowQuit customKeys keys =
        (SelOutcome.err DErr.emptyItemList, [])) ∧
    selectInteract false cfg ts allowQuit customKeys keys =
      (SelOutcome.err DErr.notATerminal, []) ∧
    msInteract [] defaults allowQuit ts keys =
      (ListOutcome.err DErr.emptyItemList, []) ∧
    sortInteract [] ts keys = (ListOutcome.err DErr.emptyItemList, []) := by
  refine ⟨?_, ?_, rfl, rfl⟩
  · intro h
    simp [selectInteract, h]
  · simp [selectInteract]

/-- Witness for C9 at a select configuration with an empty item list. -/
theorem empty_item_list_errors_witness :
    selectInteract true
      { default := usizeMax, items := [], prompt := none, report := false,
        clear := true, maxLength := none } (24, 80) false none [] =
      (SelOutcome.err DErr.emptyItemList, []) ∧
    msInteract [] [] false (24, 80) [] = (ListOutcome.err DErr.emptyItemList, []) := by
  have h := empty_item_list_errors
    { default := usizeMax, items := [], prompt := none, report := false,
      clear := true, maxLength := none } (24, 80) false none [] []
  exact ⟨h.1 rfl, h.2.2.1⟩

/-- Claim C10: the inner select interaction does propagate a key-read
I/O failure as a returned error, but the public entry point
`Select::interact_on_opt` calls `.unwrap()` on that result
(src/prompts/select.rs line 201) and therefore panics instead of
returning the error to the caller. -/
theorem interact_on_opt_panics_on_io_error :
    (selectInteract true
        { default := usizeMax, items := ["a"], prompt := none, report := false,
          clear := true, maxLength := none } (24, 80) true none
        [Except.error ()]).fst = SelOutcome.err DErr.ioFailure ∧
    selectInteractOnOpt true
        { default := usizeMax, items := ["a"], prompt := none, report := false,
          clear := true, maxLength := none } (24, 80)
        [Except.error ()] = OptOutcome.panicked := by
  constructor
  · rfl
  · rfl

/-! ## Fuzzy select prompt (src/prompts/fuzzy_select.rs) -/

/-- Query editor state of the fuzzy select loop: the live search term,
the byte cursor inside it (`position`), and the visible list cursor
(`sel`).  Items and query are character lists; the ASCII queries used
here make the byte and character positions coincide. -/
structure FZState where
  searchTerm : List Char
  position : Nat
  sel : Nat
deriving Repr, DecidableEq

/-- The filtered list recomputed each iteration
(src/prompts/fuzzy_select.rs lines 191-200): items are scored by the
matcher, non-matches dropped, and the survivors sorted by score
descending (`sort_unstable_by(|(_, s1), (_, s2)| s2.cmp(&s1))`, modelled
by an insertion sort over the comparator's relation). -/
def fuzzyFiltered (m : List Char → List Char → Option Int)
    (items : List (List Char)) (q : List Char) : List (List Char × Int) :=
  List.insertionSort (fun a b => b.snd ≤ a.snd)
    (items.filterMap (fun i => (m i q).map (fun s => (i, s))))

/-- The `Key::Char` insertion branch (src/prompts/fuzzy_select.rs lines
278-297): insert the (optionally lowercased) character at the cursor,
advance the cursor, and reset the visible selection to 0.  `low` models
`chr.to_lowercase().to_string().pop().unwrap()`. -/
def fzInsert (low : Char → Char) (caseSensitive : Bool) (c : Char)
    (st : FZState) : FZState :=
  let c2 := if caseSensitive then c else low c
  { searchTerm := st.searchTerm.insertIdx st.position c2
    position := st.position + 1
    sel := 0 }

/-- The `Key::Backspace` branch (src/prompts/fuzzy_select.rs lines
264-277), guarded by `position > 0`: step the cursor back and remove the
character there; the visible selection is left untouched. -/
def fzBackspace (st : FZState) : FZState :=
  { searchTerm := st.searchTerm.eraseIdx (st.position - 1)
    position := st.position - 1
    sel := st.sel }

/-- A subsequence check, the shape of matcher the spec calls
"subsequence semantics". -/
def subseqB : List Char → List Char → Bool
  | [], _ => true
  | _ :: _, [] => false
  | a :: as, b :: bs => if a = b then subseqB as bs else subseqB (a :: as) bs

/-- A concrete subsequence matcher standing in for `SkimMatcherV2` in
witnesses and counterexamples: an item matches when the query is a
subsequence of it. -/
def demoMatcher (item q : List Char) : Option Int :=
  if subseqB q item then some (Int.ofNat item.length) else none

/-- `Iterator::position`: index of the first element satisfying the
predicate. -/
def listPosition {α : Type} (p : α → Bool) : List α → Option Nat
  | [] => none
  | a :: as => if p a then some 0 else (listPosition p as).map (fun i => i + 1)

/-- The text of the currently selected filtered entry,
`filtered_list[sel].0`. -/
def fuzzySelText (m : List Char → List Char → Option Int)
    (items : List (List Char)) (q : List Char) (sel : Nat) : List Char :=
  ((fuzzyFiltered m items q).getD sel ([], 0)).fst

/-- The Enter branch (src/prompts/fuzzy_select.rs lines 250-263): the
returned value is recovered by string lookup in the original item list,
`self.items.iter().position(|item| item.eq(sel_string))`. -/
def fuzzyEnter (m : List Char → List Char → Option Int)
    (items : List (List Char)) (q : List Char) (sel : Nat) : Option Nat :=
  listPosition (fun item => item == fuzzySelText m items q sel) items

lemma length_fuzzyFiltered (m : List Char → List Char → Option Int)
    (items : List (List Char)) (q : List Char) :
    (fuzzyFiltered m items q).length =
      (items.filterMap (fun i => (m i q).map (fun s => (i, s)))).length :=
  (List.perm_insertionSort _ _).length_eq

lemma filterMap_length_mono {α β : Type} (f g : α → Option β) (l : List α)
    (h : ∀ a ∈ l, (f a).isSome = true → (g a).isSome = true) :
    (l.filterMap f).length ≤ (l.filterMap g).length := by
  induction l with
  | nil => simp
  | cons a l ih =>
    have hrest : ∀ x ∈ l, (f x).isSome = true → (g x).isSome = true :=
      fun x hx hs => h x (List.mem_cons_of_mem _ hx) hs
    have ihl := ih hrest
    cases hfa : f a with
    | none =>
      cases hga : g a <;> simp [List.filterMap_cons, hfa, hga] <;> omega
    | some b =>
      have hgs : (g a).isSome = true := h a (List.mem_cons_self _ _) (by simp [hfa])
      cases hga : g a with
      | none => rw [hga] at hgs; simp at hgs
      | some bb => simp [List.filterMap_cons, hfa, hga]; omega

/-- Counterexample to claim C6 as stated: from the empty query over the
single item `a` (where the cursor 0 is within the one-element filtered
list), inserting `z` resets the cursor to 0 but empties the filtered
list, so `0 ≤ cursor < filtered.len()` fails — the code never re-clamps
against an empty filtered list. -/
theorem fuzzy_cursor_counterexample :
    (fzInsert (fun c => c) false 'z' ⟨[], 0, 0⟩).sel = 0 ∧
    0 < (fuzzyFiltered demoMatcher [['a']]
        (⟨[], 0, 0⟩ : FZState).searchTerm).length ∧
    (fuzzyFiltered demoMatcher [['a']]
        (fzInsert (fun c => c) false 'z' ⟨[], 0, 0⟩).searchTerm).length = 0 ∧
    ¬ ((fzInsert (fun c => c) false 'z' ⟨[], 0, 0⟩).sel <
        (fuzzyFiltered demoMatcher [['a']]
          (fzInsert (fun c => c) false 'z' ⟨[], 0, 0⟩).searchTerm).length) := by
  refine ⟨rfl, by decide, by decide, by decide⟩

/-- Claim C6 (amended): inserting a character always resets the visible
cursor to 0, which satisfies `0 ≤ cursor < filtered.len()` whenever the
new filtered list is non-empty; a backspace leaves the cursor unchanged,
and it stays within bounds provided it was within bounds before and
every item matching the old query still matches the shortened query (as
with subsequence matchers); when the filtered list becomes empty no
cursor value can satisfy the bound and the code does not re-clamp. -/
theorem fuzzy_cursor_amended (m : List Char → List Char → Option Int)
    (items : List (List Char)) (st : FZState) (low : Char → Char)
    (caseSensitive : Bool) (c : Char) :
    ((fzInsert low caseSensitive c st).sel = 0 ∧
      (0 < (fuzzyFiltered m items (fzInsert low caseSensitive c st).searchTerm).length →
        (fzInsert low caseSensitive c st).sel <
          (fuzzyFiltered m items (fzInsert low caseSensitive c st).searchTerm).length)) ∧
    ((∀ i ∈ items, (m i st.searchTerm).isSome = true →
        (m i (fzBackspace st).searchTerm).isSome = true) →
      st.sel < (fuzzyFiltered m items st.searchTerm).length →
      (fzBackspace st).sel <
        (fuzzyFiltered m items (fzBackspace st).searchTerm).length) := by
  constructor
  · exact ⟨rfl, fun h => h⟩
  · intro hmono hsel
    have hlen : (fuzzyFiltered m items st.searchTerm).length ≤
        (fuzzyFiltered m items (fzBackspace st).searchTerm).length := by
      rw [length_fuzzyFiltered, length_fuzzyFiltered]
      refine filterMap_length_mono _ _ items ?_
      intro a ha hs
      have hs' : (m a st.searchTerm).isSome = true := by
        simpa [Option.isSome_map] using hs
      have := hmono a ha hs'
      simpa [Option.isSome_map] using this
    exact lt_of_lt_of_le hsel hlen

/-- Witness for C6 (amended) with the subsequence matcher, one item `a`
and the query `a` being edited. -/
theorem fuzzy_cursor_amended_witness :
    ((fzInsert (fun c => c) false 'a' ⟨['a'], 1, 0⟩).sel = 0) ∧
    ((fzBackspace ⟨['a'], 1, 0⟩).sel <
      (fuzzyFiltered demoMatcher [['a']]
        (fzBackspace ⟨['a'], 1, 0⟩).searchTerm).length) := by
  have h := fuzzy_cursor_amended demoMatcher [['a']] ⟨['a'], 1, 0⟩
    (fun c => c) false 'a'
  exact ⟨h.1.1, h.2 (by decide) (by decide)⟩

lemma listPosition_spec {α : Type} (p : α → Bool) (l : List α) (d : α) :
    ∀ j : Nat, listPosition p l = some j →
      j < l.length ∧ p (l.getD j d) = true ∧ ∀ k < j, p (l.getD k d) = false := by
  induction l with
  | nil => intro j h; simp [listPosition] at h
  | cons a as ih =>
    intro j h
    by_cases hpa : p a = true
    · simp only [listPosition, if_pos hpa] at h
      cases h
      exact ⟨by simp, by simpa using hpa, fun k hk => by omega⟩
    · simp only [listPosition, if_neg hpa] at h
      cases hpos : listPosition p as with
      | none => rw [hpos] at h; simp at h
      | some i =>
        rw [hpos, Option.map_some'] at h
        rw [Option.some_inj] at h
        cases h
        rcases ih i hpos with ⟨h1, h2, h3⟩
        refine ⟨by simpa using Nat.succ_lt_succ h1, by simpa using h2, ?_⟩
        intro k hk
        cases k with
        | zero =>
          have hfalse : p a = false := by revert hpa; cases p a <;> simp
          simpa using hfalse
        | succ k => simpa using h3 k (by omega)

lemma listPosition_isSome {α : Type} (p : α → Bool) (l : List α)
    (hx : ∃ a ∈ l, p a = true) : (listPosition p l).isSome = true := by
  induction l with
  | nil => rcases hx with ⟨a, ha, _⟩; simp at ha
  | cons a as ih =>
    by_cases hpa : p a = true
    · simp [listPosition, hpa]
    · rcases hx with ⟨b, hb, hpb⟩
      rcases List.mem_cons.mp hb with rfl | hb
      · exact absurd hpb hpa
      · have := ih ⟨b, hb, hpb⟩
        simp only [listPosition, if_neg hpa]
        simpa [Option.isSome_map] using this

lemma fuzzySelText_mem (m : List Char → List Char → Option Int)
    (items : List (List Char)) (q : List Char) (sel : Nat)
    (h : sel < (fuzzyFiltered m items q).length) :
    fuzzySelText m items q sel ∈ items := by
  have hget : (fuzzyFiltered m items q).getD sel ([], 0) ∈ fuzzyFiltered m items q := by
    rw [List.getD_eq_getElem _ _ h]
    exact List.getElem_mem h
  have hperm := List.perm_insertionSort (fun a b : List Char × Int => b.snd ≤ a.snd)
    (items.filterMap (fun i => (m i q).map (fun s => (i, s))))
  have hmem2 : (fuzzyFiltered m items q).getD sel ([], 0) ∈
      items.filterMap (fun i => (m i q).map (fun s => (i, s))) :=
    hperm.subset hget
  rcases List.mem_filterMap.mp hmem2 with ⟨a, ha, hfa⟩
  cases hma : m a q with
  | none =>
    rw [hma, Option.map_none'] at hfa
    exact Option.noConfusion hfa
  | some s =>
    rw [hma, Option.map_some'] at hfa
    rw [Option.some_inj] at hfa
    have : fuzzySelText m items q sel = a := by
      rw [fuzzySelText, ← hfa]
    rw [this]
    exact ha

/-- Claim C7: when Enter is pressed with a non-empty filtered list and a
valid cursor, the returned value is the smallest index in the original
item list whose text equals the text of the selected filtered entry — a
string lookup, not an index carried with the entry. -/
theorem fuzzy_enter_string_lookup (m : List Char → List Char → Option Int)
    (items : List (List Char)) (q : List Char) (sel : Nat)
    (h : sel < (fuzzyFiltered m items q).length) :
    ∃ j, fuzzyEnter m items q sel = some j ∧
      j < items.length ∧
      items.getD j [] = fuzzySelText m items q sel ∧
      ∀ k < j, items.getD k [] ≠ fuzzySelText m items q sel := by
  have hmem := fuzzySelText_mem m items q sel h
  have hsome := listPosition_isSome
    (fun item => item == fuzzySelText m items q sel) items
    ⟨fuzzySelText m items q sel, hmem, by simp⟩
  obtain ⟨j, hj⟩ := Option.isSome_iff_exists.mp hsome
  rcases listPosition_spec (fun item => item == fuzzySelText m items q sel)
    items [] j hj with ⟨h1, h2, h3⟩
  refine ⟨j, hj, h1, by simpa using h2, ?_⟩
  intro k hk
  have := h3 k hk
  simpa using this

/-- Witness for C7: two items `a`, `b`, empty query (both match), cursor
on the best-scored entry. -/
theorem fuzzy_enter_string_lookup_witness :
    0 < (fuzzyFiltered demoMatcher [['a'], ['b']] []).length ∧
    ∃ j, fuzzyEnter demoMatcher [['a'], ['b']] [] 0 = some j ∧
      j < ([['a'], ['b']] : List (List Char)).length ∧
      ([['a'], ['b']] : List (List Char)).getD j [] =
        fuzzySelText demoMatcher [['a'], ['b']] [] 0 ∧
      ∀ k < j, ([['a'], ['b']] : List (List Char)).getD k [] ≠
        fuzzySelText demoMatcher [['a'], ['b']] [] 0 := by
  refine ⟨by decide, fuzzy_enter_string_lookup demoMatcher [['a'], ['b']] [] 0 (by decide)⟩

/-! ## Line editor Enter logic (src/prompts/input.rs) -/

/-- Result of one Enter press of the input loop: either the interaction
returns a value, or the loop continues (with an error rendered first when
`err` is set). -/
inductive LoopStep (T : Type) where
  | ret (v : T)
  | again (err : Option String)
deriving DecidableEq

/-- The shared parse-then-validate tail of `Input::interact_text_on`
(src/prompts/input.rs lines 338-358): a parse failure or validator
rejection renders the error and continues, success returns the value. -/
def inputParseBranch {T : Type} (input : String) (validate : T → Option String)
    (parse : String → Except String T) : LoopStep T :=
  match parse input with
  | Except.ok value =>
    match validate value with
    | some err => LoopStep.again (some err)
    | none => LoopStep.ret value
  | Except.error err => LoopStep.again (some err)

/-- The Enter handling of `Input::interact_text_on` (src/prompts/input.rs
lines 321-358); `Input::interact_on` (lines 498-533) has the identical
empty-buffer/default logic.  With an empty buffer: a configured default
is passed through the validator chain — rejection renders the error and
continues, acceptance returns the default; with no default and empty
input disallowed the loop silently continues; otherwise the buffer is
parsed and validated. -/
def inputEnterStep {T : Type} (chars : List Char) (defaultVal : Option T)
    (permitEmpty : Bool) (validate : T → Option String)
    (parse : String → Except String T) : LoopStep T :=
  let input : String := ⟨chars⟩
  if chars.isEmpty then
    match defaultVal with
    | some d =>
      match validate d with
      | some err => LoopStep.again (some err)
      | none => LoopStep.ret d
    | none =>
      if !permitEmpty then LoopStep.again none
      else inputParseBranch input validate parse
  else inputParseBranch input validate parse

/-- Claim C8: pressing Enter on an empty buffer with a configured default
routes the default through the validator chain — rejection shows the
error and continues the loop, acceptance returns the default (for
default `Earth`, the returned value is `Earth`); with an empty buffer,
no default and empty input disallowed, the loop continues with no error
surfaced. -/
theorem input_enter_default {T : Type} (d : T) (permitEmpty : Bool)
    (validate : T → Option String) (parse : String → Except String T) :
    (validate d = none →
      inputEnterStep [] (some d) permitEmpty validate parse = LoopStep.ret d) ∧
    (∀ err, validate d = some err →
      inputEnterStep [] (some d) permitEmpty validate parse =
        LoopStep.again (some err)) ∧
    inputEnterStep ([] : List Char) (none : Option T) false validate parse =
      LoopStep.again none ∧
    inputEnterStep ([] : List Char) (some "Earth") false
      (fun _ => none) (fun s => Except.ok s) = LoopStep.ret "Earth" := by
  refine ⟨?_, ?_, rfl, rfl⟩
  · intro h
    simp [inputEnterStep, h]
  · intro err h
    simp [inputEnterStep, h]

/-- Witness for C8 with default `Earth`, an accepting validator chain and
the infallible `String` parse. -/
theorem input_enter_default_witness :
    inputEnterStep [] (some "Earth") false (fun _ => none)
      (fun s => Except.ok s) = LoopStep.ret "Earth" :=
  (input_enter_default "Earth" false (fun _ => none) (fun s => Except.ok s)).1 rfl

end Dialoguer
